import Mathlib

/-!
Verification of the SigNoz log-query tool
(`src/frontends/flutter/query_signoz_logs.py`).

The Python source is shallowly embedded below: dictionaries become
association lists, Python values stored in a row's `data` dict become the
`PyVal` inductive, `datetime` arithmetic becomes arithmetic on microseconds
and epoch seconds, and the stable `list.sort` becomes `List.insertionSort`
(which is stable; the stability facts needed are proved explicitly).
-/

/-! ### Generic string helpers (models of Python string operations) -/

/-- Model of `sep.join(parts)` for a separator between successive parts. -/
def joinSep (sep : String) : List String → String
  | [] => ""
  | [x] => x
  | x :: y :: rest => x ++ sep ++ joinSep sep (y :: rest)

/-- Does the first list occur as a leading segment of the second? -/
def prefixMatches : List Char → List Char → Bool
  | [], _ => true
  | _ :: _, [] => false
  | c :: cs, d :: ds => c == d && prefixMatches cs ds

/-- Does `needle` occur contiguously anywhere inside `hay`?  Model of
Python's `needle in hay` substring test. -/
def occursIn (needle hay : List Char) : Bool :=
  match hay with
  | [] => needle.isEmpty
  | _ :: t => prefixMatches needle hay || occursIn needle t

/-- Model of the Python substring test `needle in hay` on `str` values. -/
def strContains (hay needle : String) : Bool :=
  occursIn needle.data hay.data

/-! ### Python values stored in a log row's `data` dictionary -/

/-- A Python value as it appears in a decoded JSON log row: string, int,
bool, `None`, list or dict.  (Floats are not used by the script's logic.) -/
inductive PyVal where
  | vStr (s : String)
  | vInt (n : Int)
  | vBool (b : Bool)
  | vNone
  | vList (xs : List PyVal)
  | vDict (kvs : List (String × PyVal))

/-- JSON escaping of a single character, as `json.dumps` performs for the
ASCII payloads this tool handles (the `\uXXXX` escapes that `json.dumps`
emits for other control and non-ASCII characters are not modelled; no
claim depends on them). -/
def jsonEscapeChar (c : Char) : String :=
  if c == '"' then "\\\""
  else if c == '\\' then "\\\\"
  else if c == '\n' then "\\n"
  else if c == '\t' then "\\t"
  else if c == '\r' then "\\r"
  else String.mk [c]

/-- JSON escaping of a string body. -/
def jsonEscape (s : String) : String :=
  (s.data.map jsonEscapeChar).foldl (fun a b => a ++ b) ""

mutual

/-- Model of `json.dumps(value, separators=(',', ':'))`: compact JSON
serialization used at `query_signoz_logs.py:196` for dict/list metadata
values. -/
def jsonDump : PyVal → String
  | PyVal.vStr s => "\"" ++ jsonEscape s ++ "\""
  | PyVal.vInt n => toString n
  | PyVal.vBool b => if b then "true" else "false"
  | PyVal.vNone => "null"
  | PyVal.vList xs => "[" ++ jsonDumpList xs ++ "]"
  | PyVal.vDict kvs => "\x7b" ++ jsonDumpObj kvs ++ "\x7d"

/-- Comma-separated serialization of a JSON array body. -/
def jsonDumpList : List PyVal → String
  | [] => ""
  | [x] => jsonDump x
  | x :: y :: rest => jsonDump x ++ "," ++ jsonDumpList (y :: rest)

/-- Comma-separated serialization of a JSON object body. -/
def jsonDumpObj : List (String × PyVal) → String
  | [] => ""
  | [(k, v)] => "\"" ++ jsonEscape k ++ "\":" ++ jsonDump v
  | (k, v) :: p :: rest =>
      "\"" ++ jsonEscape k ++ "\":" ++ jsonDump v ++ "," ++ jsonDumpObj (p :: rest)

end

/-- Dictionary lookup: first binding of key `k`, if any.  Python dicts have
unique keys, so association lists built by `dictInsert` below match. -/
def lookupVal (d : List (String × PyVal)) (k : String) : Option PyVal :=
  (d.find? (fun p => p.1 == k)).map (fun p => p.2)

/-- Model of `row_data.get(k, default)` for fields the script reads as
strings (`body`, `severity_text`).  A stored non-string value is
unreachable for well-formed log payloads and maps to `""`. -/
def getStrD (d : List (String × PyVal)) (k dflt : String) : String :=
  match lookupVal d k with
  | some (PyVal.vStr s) => s
  | some _ => ""
  | none => dflt

/-! ### Log rows -/

/-- A log row as handled by the script: `row.get("timestamp", "")` is the
`timestamp` field, `row.get("data", {})` is the `data` association list and
the `"_type"` source tag written by `correlate_tx_and_errors` is `tag`. -/
structure LogRow where
  timestamp : String
  data : List (String × PyVal)
  tag : Option String := none

/-- The sort relation used at `query_signoz_logs.py:368`:
`all_rows.sort(key=lambda r: r.get("timestamp", ""))` compares rows by
their timestamp strings. -/
def byTs (a b : LogRow) : Prop :=
  a.timestamp ≤ b.timestamp

instance : DecidableRel byTs :=
  fun a b => inferInstanceAs (Decidable (a.timestamp ≤ b.timestamp))

instance : IsTotal LogRow byTs :=
  ⟨fun a b => le_total a.timestamp b.timestamp⟩

instance : IsTrans LogRow byTs :=
  ⟨fun _ _ _ hab hbc => le_trans hab hbc⟩

/-- Model of `row["_type"] = tag` at `query_signoz_logs.py:361` and `:364`. -/
def setTag (tag : String) (r : LogRow) : LogRow :=
  { r with tag := some tag }

/-- Model of `query_signoz_logs.py:358-368`: tag the TX rows `"TX"`, tag the
error rows `"ERROR"`, concatenate in that order, and stable-sort ascending
by timestamp string (`list.sort` is stable; `List.insertionSort` is the
stable sort used to model it, and the stability fact the claims need is
proved below). -/
def mergeTimeline (txRows errorRows : List LogRow) : List LogRow :=
  List.insertionSort byTs (txRows.map (setTag "TX") ++ errorRows.map (setTag "ERROR"))

/-! ### Time-range resolution (`query_logs`, lines 53-71) -/

/-- Split a character list on `':'` separators (model of how
`datetime.strptime(s, "%H:%M:%S")` tokenizes its input). -/
def splitOnColon : List Char → List (List Char)
  | [] => [[]]
  | c :: rest =>
    if c == ':' then [] :: splitOnColon rest
    else
      match splitOnColon rest with
      | [] => [[c]]
      | p :: ps => (c :: p) :: ps

/-- Decimal value of a digit list. -/
def digitsToNat (cs : List Char) : Nat :=
  cs.foldl (fun n c => n * 10 + (c.toNat - 48)) 0

/-- One `strptime` field: 1 or 2 decimal digits whose value is at most
`hi`.  Mirrors the `%H`/`%M`/`%S` directives (1-2 digits, bounded range). -/
def parseTimeField (cs : List Char) (hi : Nat) : Option Nat :=
  if cs ≠ [] ∧ cs.length ≤ 2 ∧ cs.all (fun c => c.isDigit) then
    let v := digitsToNat cs
    if v ≤ hi then some v else none
  else none

/-- Model of `datetime.strptime(s, "%H:%M:%S").time()` reduced to seconds
since midnight; `none` models the `ValueError` strptime raises on a
malformed time string. -/
def parseHMS (s : String) : Option Nat :=
  match splitOnColon s.data with
  | [h, m, sec] => do
    let hv ← parseTimeField h 23
    let mv ← parseTimeField m 59
    let sv ← parseTimeField sec 59
    pure (hv * 3600 + mv * 60 + sv)
  | _ => none

/-- Model of the look-back branch (`query_signoz_logs.py:63-71`):
`end_time = datetime.utcnow()` (here `nowUs` microseconds since the epoch),
`start_time = end_time - timedelta(minutes=minutes)`, then
`calendar.timegm(t.timetuple()) * 1000` truncates each to whole seconds
before scaling to milliseconds.  Returns `(start_ms, end_ms)`. -/
def resolveRelative (nowUs : Nat) (minutes : Nat) : Int × Int :=
  let startSec : Nat := (nowUs - minutes * 60000000) / 1000000
  let endSec : Nat := nowUs / 1000000
  ((startSec * 1000 : Nat), (endSec * 1000 : Nat))

/-- Model of the explicit bare-time branch (`query_signoz_logs.py:58-62` and
`:70-71`): parse `start`/`end` as `HH:MM:SS`, combine each with today's UTC
date (`todayEpochDay` days since the epoch), convert to epoch milliseconds.
`Except.error` models the uncaught `ValueError` from `strptime`.  (The ISO
branch taken when the start string contains `"T"` is not modelled; no claim
depends on it.) -/
def resolveExplicitHMS (todayEpochDay : Nat) (startStr endStr : String) :
    Except String (Int × Int) :=
  match parseHMS startStr, parseHMS endStr with
  | some ss, some es =>
      Except.ok (((todayEpochDay * 86400 + ss) * 1000 : Nat),
                 ((todayEpochDay * 86400 + es) * 1000 : Nat))
  | _, _ => Except.error "ValueError: time data does not match format"

/-- The time specification reaching `query_logs`: either a look-back in
minutes or an explicit bare `HH:MM:SS` pair (the explicit pair takes
precedence in the source, mirrored by the constructor chosen). -/
inductive TimeSpec where
  | lookback (minutes : Nat)
  | barePair (startStr endStr : String)

/-- Time-window resolution for a `TimeSpec` (lines 53-71 of the source). -/
def resolveSpec (nowUs todayEpochDay : Nat) : TimeSpec → Except String (Int × Int)
  | TimeSpec.lookback m => Except.ok (resolveRelative nowUs m)
  | TimeSpec.barePair s e => resolveExplicitHMS todayEpochDay s e

/-! ### Filter-expression construction (`query_logs`, lines 84-97) -/

/-- Model of `query_signoz_logs.py:84-97`.  Each argument is `none` when the
criterion is absent; a supplied empty string is skipped exactly like Python's
falsy `if severity:` / `if body_filter:` / `if trace_id:` checks do. -/
def buildFilterExpr (severity bodyFilter traceId : Option String)
    (metadataFilters : Option (List (String × String))) : String :=
  let parts1 : List String :=
    match severity with
    | some s => if s = "" then [] else ["severity_text=\"" ++ s ++ "\""]
    | none => []
  let parts2 : List String :=
    parts1 ++ match bodyFilter with
    | some b => if b = "" then [] else ["body ILIKE \"%" ++ b ++ "%\""]
    | none => []
  let parts3 : List String :=
    parts2 ++ match traceId with
    | some t => if t = "" then [] else ["trace_id=\"" ++ t ++ "\""]
    | none => []
  let parts4 : List String :=
    parts3 ++ match metadataFilters with
    | some mf => mf.map (fun p => p.1 ++ "=\"" ++ p.2 ++ "\"")
    | none => []
  if parts4.isEmpty then "" else joinSep " AND " parts4

/-- The clause list the specification prescribes: one clause per supplied
(non-empty, matching Python truthiness) criterion, in the fixed order
severity, body substring, trace id, then metadata clauses in caller order. -/
def filterClauses (severity bodyFilter traceId : Option String)
    (metadataFilters : Option (List (String × String))) : List String :=
  (match severity with
   | some s => if s = "" then [] else ["severity_text=\"" ++ s ++ "\""]
   | none => []) ++
  (match bodyFilter with
   | some b => if b = "" then [] else ["body ILIKE \"%" ++ b ++ "%\""]
   | none => []) ++
  (match traceId with
   | some t => if t = "" then [] else ["trace_id=\"" ++ t ++ "\""]
   | none => []) ++
  (match metadataFilters with
   | some mf => mf.map (fun p => p.1 ++ "=\"" ++ p.2 ++ "\"")
   | none => [])

/-! ### Response handling (`query_logs`, lines 127-156) -/

/-- One entry of `data["data"]["data"]["results"]`: its `rows` field may be
absent or `null` (the source guards with `results[0].get("rows") or []`). -/
structure ApiResult where
  rows : Option (List LogRow)

/-- The transport result of `requests.post` as the script consumes it:
HTTP status code, raw response text, the decoded payload's `status` field,
its `results` list, its `meta.rowsScanned` count, and the pretty-printed
payload dump used in the failure diagnostic. -/
structure ApiResponse where
  statusCode : Nat
  text : String
  status : String
  results : List ApiResult
  rowsScanned : Nat
  payloadDump : String

/-- Model of `query_signoz_logs.py:129-156`: the rows extracted from a
response together with the lines printed while handling it (the printed
diagnostics are modelled as the second component).  A non-200 transport
result or a non-`"success"` payload status yields no rows plus an error
diagnostic; otherwise the first result's rows (or `[]`) are returned. -/
def handleResponse (resp : ApiResponse) : List LogRow × List String :=
  if resp.statusCode ≠ 200 then
    ([], ["Error: HTTP " ++ toString resp.statusCode,
          String.mk (resp.text.data.take 500)])
  else if resp.status ≠ "success" then
    ([], ["Query failed: " ++ resp.payloadDump])
  else
    let rows : List LogRow :=
      match resp.results with
      | [] => []
      | r :: _ => r.rows.getD []
    (rows, ["Scanned: " ++ toString resp.rowsScanned ++ " rows",
            "Found: " ++ toString rows.length ++ " results"])

/-- Model of `query_logs` (lines 39-156) reduced to its decision structure:
resolve the time specification (a malformed time string raises an uncaught
`ValueError`, modelled as `Except.error`, before any query is issued), then
issue the query and handle the response.  The transport layer is modelled
as the already-received `resp`. -/
def query_logs (nowUs todayEpochDay : Nat) (spec : TimeSpec)
    (resp : ApiResponse) : Except String (List LogRow × List String) :=
  match resolveSpec nowUs todayEpochDay spec with
  | Except.error msg => Except.error msg
  | Except.ok _ => Except.ok (handleResponse resp)

/-! ### Metadata projection (`format_metadata_fields`, lines 169-210) -/

/-- Value rendering at `query_signoz_logs.py:194-200`: dict/list values via
compact `json.dumps`, `None` as the empty string, everything else via
`str(value)`. -/
def renderVal : PyVal → String
  | PyVal.vDict kvs => jsonDump (PyVal.vDict kvs)
  | PyVal.vList xs => jsonDump (PyVal.vList xs)
  | PyVal.vNone => ""
  | PyVal.vStr s => s
  | PyVal.vInt n => toString n
  | PyVal.vBool b => if b then "True" else "False"

/-- The truncation at `query_signoz_logs.py:202-204`: values longer than 50
characters become their first 47 characters plus `"..."`. -/
def truncateValue (s : String) : String :=
  if s.length > 50 then String.mk (s.data.take 47) ++ "..." else s

/-- Model of `format_metadata_fields` (lines 169-210).  `fieldsToShow = none`
models Python `fields_to_show=None`: all keys of the row except `body` and
`severity_text`, in dictionary (insertion) order.  The `not isinstance(row_data,
dict)` guard is not modelled: `rowData` is typed as a dictionary. -/
def format_metadata_fields (rowData : List (String × PyVal))
    (fieldsToShow : Option (List String)) : String :=
  let fields : List String :=
    match fieldsToShow with
    | none => (rowData.map (fun p => p.1)).filter
        (fun k => ¬(k = "body" ∨ k = "severity_text"))
    | some fs => fs
  if fields.isEmpty then ""
  else
    let parts : List String :=
      fields.foldl (fun acc f =>
        match lookupVal rowData f with
        | some v => acc ++ [f ++ "=" ++ truncateValue (renderVal v)]
        | none => acc) []
    if parts.isEmpty then "" else " | " ++ joinSep " | " parts

/-! ### Display markers (`display_logs` lines 213-260 and
`correlate_tx_and_errors` lines 380-391) -/

/-- The default highlight keyword set (`query_signoz_logs.py:224`). -/
def defaultHighlightKeywords : List String :=
  ["[TX]", "ERROR", "COMMIT", "BEGIN", "Autocommit"]

/-- The leading marker chosen for a row by single-stream `display_logs`
(lines 223-249): `">>>"` when any highlight keyword occurs in the body or
the severity is `"ERROR"`, else three spaces. -/
def displayMarker (highlightKeywords : Option (List String))
    (rowData : List (String × PyVal)) : String :=
  let kws := highlightKeywords.getD defaultHighlightKeywords
  let body := getStrD rowData "body" ""
  let severity := getStrD rowData "severity_text" "INFO"
  if kws.any (fun kw => strContains body kw) || severity == "ERROR" then ">>>"
  else "   "

/-- The leading marker chosen for a merged-timeline row by
`correlate_tx_and_errors` (lines 383-391): `">>>"` exactly when the row's
`"_type"` tag (default `"?"`) is `"ERROR"`, else four spaces — the body and
severity are not consulted. -/
def correlateMarker (r : LogRow) : String :=
  if (r.tag.getD "?") == "ERROR" then ">>>" else "    "

/-! ### Metadata filter argument parsing (`parse_metadata_filters`,
lines 394-407) -/

/-- Python whitespace as stripped by `str.strip()`. -/
def isPyWs (c : Char) : Bool :=
  c == ' ' || c == '\t' || c == '\n' || c == '\r' || c == '\x0b' || c == '\x0c'

/-- Model of `str.strip()`: remove leading and trailing whitespace. -/
def pyStrip (s : String) : String :=
  String.mk (((s.data.dropWhile isPyWs).reverse.dropWhile isPyWs).reverse)

/-- Split a character list at its first `'='`, if any; models
`meta.split("=", 1)` guarded by `"=" in meta`. -/
def splitFirstEq : List Char → Option (List Char × List Char)
  | [] => none
  | c :: rest =>
    if c == '=' then some ([], rest)
    else
      match splitFirstEq rest with
      | none => none
      | some (k, v) => some (c :: k, v)

/-- Model of the Python membership test for the separator, written via the
same splitter the parser uses. -/
def hasEqSign (s : String) : Bool :=
  (splitFirstEq s.data).isSome

/-- Python dict assignment `d[k] = v`: replace the value of an existing key
in place, otherwise append the new binding (insertion order preserved). -/
def dictInsert (d : List (String × String)) (k v : String) :
    List (String × String) :=
  match d with
  | [] => [(k, v)]
  | (k1, v1) :: rest =>
      if k1 == k then (k, v) :: rest else (k1, v1) :: dictInsert rest k v

/-- One iteration of the loop at `query_signoz_logs.py:400-405`: a
well-formed `key=value` argument is split on the first `=`, both halves are
stripped and assigned into the dict; a malformed argument only produces a
warning and leaves the dict unchanged. -/
def parseMetaStep (d : List (String × String)) (meta : String) :
    List (String × String) :=
  match splitFirstEq meta.data with
  | some (k, v) => dictInsert d (pyStrip (String.mk k)) (pyStrip (String.mk v))
  | none => d

/-- Model of `parse_metadata_filters` (lines 394-407): `none` models the
Python `None` returned both for an absent/empty argument list and when no
argument was well-formed. -/
def parse_metadata_filters (metaArgs : List String) :
    Option (List (String × String)) :=
  if metaArgs.isEmpty then none
  else
    let filters := metaArgs.foldl parseMetaStep []
    if filters.isEmpty then none else some filters

/-! ### Dual-stream correlation (`correlate_tx_and_errors`, lines 329-391) -/

/-- The arguments `correlate_tx_and_errors` passes to `query_logs` for one
stream. -/
structure QueryCall where
  minutes : Nat
  severity : Option String
  limit : Nat
  startUtc : Option String
  endUtc : Option String
  traceId : Option String
  metadataFilters : Option (List (String × String))

/-- Model of `correlate_tx_and_errors` (lines 329-391), with the external
query service abstracted as `svc`.  Returns the two issued query calls in
order together with the merged timeline: a DEBUG query with the caller's
`limit`, filtered to bodies containing `"[TX]"`, then an ERROR query with
the hard-coded limit 100, then the tagged stable merge. -/
def correlate_tx_and_errors (svc : QueryCall → List LogRow)
    (minutes limit : Nat) (startUtc endUtc traceId : Option String)
    (metadataFilters : Option (List (String × String))) :
    List QueryCall × List LogRow :=
  let debugCall : QueryCall :=
    ⟨minutes, some "DEBUG", limit, startUtc, endUtc, traceId, metadataFilters⟩
  let debugRows := svc debugCall
  let txRows := debugRows.filter
    (fun r => strContains (getStrD r.data "body" "") "[TX]")
  let errorCall : QueryCall :=
    ⟨minutes, some "ERROR", 100, startUtc, endUtc, traceId, metadataFilters⟩
  let errorRows := svc errorCall
  ([debugCall, errorCall], mergeTimeline txRows errorRows)

/-! ### Stability of the timestamp sort -/

/-- Inserting a row into a list leaves the subsequence of any fixed
timestamp equal to consing the row onto it (the rows skipped over are
strictly earlier, hence have a different timestamp). -/
theorem filterTs_orderedInsert (t : String) (a : LogRow) (l : List LogRow) :
    (List.orderedInsert byTs a l).filter (fun r => r.timestamp == t) =
      (a :: l).filter (fun r => r.timestamp == t) := by
  induction l with
  | nil => rfl
  | cons b bs ih =>
    rw [List.orderedInsert]
    by_cases h : byTs a b
    · rw [if_pos h]
    · rw [if_neg h]
      by_cases pa : a.timestamp = t <;> by_cases pb : b.timestamp = t
    -- the timestamps cannot both equal t: b < a would contradict a = t = b
      · exact absurd (le_of_eq (pa.trans pb.symm)) h
      · simp [List.filter_cons, pa, pb, ih]
      · simp [List.filter_cons, pa, pb, ih]
      · simp [List.filter_cons, pa, pb, ih]

/-- Insertion sort by timestamp is stable: rows of any fixed timestamp keep
their relative input order. -/
theorem filterTs_insertionSort (t : String) (l : List LogRow) :
    (List.insertionSort byTs l).filter (fun r => r.timestamp == t) =
      l.filter (fun r => r.timestamp == t) := by
  induction l with
  | nil => rfl
  | cons a l ih =>
    rw [List.insertionSort, filterTs_orderedInsert]
    simp [List.filter_cons, ih]

/-- C1: for every pair of input row sets, the correlated timeline has length
`|A| + |B|`, is sorted non-decreasing by timestamp string, is exactly the
two tagged input streams merged (TX tags on the A-stream, ERROR tags on the
B-stream), and the sort is stable: among rows of equal timestamp the
relative input order is kept, all tagged A-rows before all tagged B-rows. -/
theorem c1_stream_correlator_merge (A B : List LogRow) :
    (mergeTimeline A B).length = A.length + B.length ∧
    List.Sorted byTs (mergeTimeline A B) ∧
    (mergeTimeline A B).Perm (A.map (setTag "TX") ++ B.map (setTag "ERROR")) ∧
    ∀ t : String,
      (mergeTimeline A B).filter (fun r => r.timestamp == t) =
        (A.map (setTag "TX")).filter (fun r => r.timestamp == t) ++
          (B.map (setTag "ERROR")).filter (fun r => r.timestamp == t) := by
  refine ⟨?_, ?_, ?_, ?_⟩
  · rw [mergeTimeline, List.length_insertionSort, List.length_append,
      List.length_map, List.length_map]
  · exact List.sorted_insertionSort byTs _
  · exact List.perm_insertionSort byTs _
  · intro t
    rw [mergeTimeline, filterTs_insertionSort, List.filter_append]

/-- C2 counterexample: the explicit pair `23:00:00` / `01:00:00` is accepted
and resolves (on epoch day 20000) to an inverted window whose `start_ms`
exceeds its `end_ms`, refuting the `start_ms < end_ms` invariant. -/
theorem c2_counterexample :
    (resolveExplicitHMS 20000 "23:00:00" "01:00:00").toOption =
      some (1728082800000, 1728003600000) ∧
    ¬((1728082800000 : Int) < 1728003600000) := by decide

/-- C2 (amended): an explicit bare-time window satisfies
`start_ms < end_ms` exactly when the end time-of-day is strictly later than
the start time-of-day; this theorem proves the positive direction, and the
counterexample shows the midnight-crossing case inverts the window. -/
theorem c2_explicit_window_order (todayEpochDay : Nat) (s e : String)
    (ss es : Nat) (hs : parseHMS s = some ss) (he : parseHMS e = some es)
    (hlt : ss < es) :
    resolveExplicitHMS todayEpochDay s e =
      Except.ok ((((todayEpochDay * 86400 + ss) * 1000 : Nat) : Int),
                 (((todayEpochDay * 86400 + es) * 1000 : Nat) : Int)) ∧
    (((todayEpochDay * 86400 + ss) * 1000 : Nat) : Int) <
      (((todayEpochDay * 86400 + es) * 1000 : Nat) : Int) := by
  constructor
  · simp only [resolveExplicitHMS, hs, he]
  · have h1 : (todayEpochDay * 86400 + ss) * 1000 <
        (todayEpochDay * 86400 + es) * 1000 := by
      have : todayEpochDay * 86400 + ss < todayEpochDay * 86400 + es := by omega
      omega
    exact_mod_cast h1

/-- Witness for the amended C2 at the spec's own example pair. -/
theorem c2_explicit_window_order_witness :
    resolveExplicitHMS 19000 "10:00:00" "10:05:00" =
      Except.ok ((((19000 * 86400 + 36000) * 1000 : Nat) : Int),
                 (((19000 * 86400 + 36300) * 1000 : Nat) : Int)) ∧
    (((19000 * 86400 + 36000) * 1000 : Nat) : Int) <
      (((19000 * 86400 + 36300) * 1000 : Nat) : Int) :=
  c2_explicit_window_order 19000 "10:00:00" "10:05:00" 36000 36300
    (by decide) (by decide) (by decide)

/-- Joining an empty clause list gives the empty expression, so the guard in
the source is redundant but harmless. -/
theorem joinSep_guard (sep : String) (l : List String) :
    (if l.isEmpty then "" else joinSep sep l) = joinSep sep l := by
  cases l <;> rfl

/-- C3: the builder yields exactly `severity_text="ERROR" AND
trace_id="abc"` for severity `ERROR` plus trace id `abc`, the empty string
for no criteria, and in general the `" AND "`-join of the clause list in
the fixed order severity, body substring, trace id, then metadata clauses
in caller order, absent criteria contributing no clause. -/
theorem c3_filter_expression_builder :
    buildFilterExpr (some "ERROR") none (some "abc") none =
      "severity_text=\"ERROR\" AND trace_id=\"abc\"" ∧
    buildFilterExpr none none none none = "" ∧
    ∀ (severity bodyFilter traceId : Option String)
      (metadataFilters : Option (List (String × String))),
      buildFilterExpr severity bodyFilter traceId metadataFilters =
        joinSep " AND " (filterClauses severity bodyFilter traceId metadataFilters) := by
  refine ⟨by decide, rfl, ?_⟩
  intro severity bodyFilter traceId metadataFilters
  simp only [buildFilterExpr, filterClauses, List.append_assoc]
  rw [joinSep_guard]

/-- C4: with no explicit start/end, a look-back of `m` minutes resolves to
a window exactly `m * 60000` milliseconds wide (the whole-second truncation
performed by `calendar.timegm` cancels between the two endpoints). -/
theorem c4_lookback_window_width (nowUs m : Nat) (hm : 0 < m)
    (hle : m * 60000000 ≤ nowUs) :
    (resolveRelative nowUs m).2 - (resolveRelative nowUs m).1 = (m : Int) * 60000 := by
  have hsub : nowUs - m * 60000000 + m * 60 * 1000000 = nowUs := by omega
  have hdiv : (nowUs - m * 60000000 + m * 60 * 1000000) / 1000000 =
      (nowUs - m * 60000000) / 1000000 + m * 60 :=
    Nat.add_mul_div_right _ _ (by norm_num)
  rw [hsub] at hdiv
  simp only [resolveRelative]
  omega

/-- Witness for C4 at a concrete clock value and a 10-minute look-back. -/
theorem c4_lookback_window_width_witness :
    (resolveRelative 1700000000123456 10).2 -
      (resolveRelative 1700000000123456 10).1 = (10 : Int) * 60000 :=
  c4_lookback_window_width 1700000000123456 10 (by decide) (by decide)

/-- A TX-stream row whose body contains the `"[TX]"` highlight keyword: the
highlight rule says it is notable, yet the dual-stream renderer ignores the
rule. -/
def c5Row : LogRow :=
  { timestamp := "2024-01-01T00:00:00Z",
    data := [("body", PyVal.vStr "[TX] begin"),
             ("severity_text", PyVal.vStr "DEBUG")],
    tag := some "TX" }

/-- C5 counterexample: a TX-tagged row whose body contains the default
highlight keyword `"[TX]"` satisfies the claimed highlight condition (and
single-stream display would mark it), yet the dual-stream correlated
renderer gives it the neutral marker because only the source tag is
consulted there. -/
theorem c5_counterexample :
    defaultHighlightKeywords.any
      (fun kw => strContains (getStrD c5Row.data "body" "") kw) = true ∧
    displayMarker none c5Row.data = ">>>" ∧
    correlateMarker c5Row ≠ ">>>" := by decide

/-- C5 (amended): in single-stream display a record is marked with the
distinguishing marker iff its body contains a highlight keyword or its
severity equals `ERROR`; in dual-stream correlated display the marker
depends only on the source tag — exactly the ERROR-stream records are
marked, regardless of body keywords or severity. -/
theorem c5_marker_rules (kws : Option (List String))
    (rowData : List (String × PyVal)) (r : LogRow) :
    (displayMarker kws rowData = ">>>" ↔
      ((kws.getD defaultHighlightKeywords).any
          (fun kw => strContains (getStrD rowData "body" "") kw) = true ∨
        getStrD rowData "severity_text" "INFO" = "ERROR")) ∧
    (correlateMarker r = ">>>" ↔ r.tag.getD "?" = "ERROR") := by
  constructor
  · rw [displayMarker]
    by_cases h : ((kws.getD defaultHighlightKeywords).any
        (fun kw => strContains (getStrD rowData "body" "") kw) ||
          (getStrD rowData "severity_text" "INFO" == "ERROR")) = true
    · rw [if_pos h]
      simp only [Bool.or_eq_true, beq_iff_eq] at h
      exact iff_of_true rfl h
    · rw [if_neg h]
      simp only [Bool.or_eq_true, beq_iff_eq] at h
      have hne : ("   " : String) ≠ ">>>" := by decide
      exact ⟨fun hc => absurd hc hne, fun hc => absurd hc h⟩
  · rw [correlateMarker]
    by_cases h : ((r.tag.getD "?") == "ERROR") = true
    · rw [if_pos h]
      exact iff_of_true rfl (beq_iff_eq.mp h)
    · rw [if_neg h]
      have hne : ("    " : String) ≠ ">>>" := by decide
      rw [beq_iff_eq] at h
      exact ⟨fun hc => absurd hc hne, fun hc => absurd hc h⟩

/-- C6: for every received response with a non-200 transport result or a
non-`"success"` payload status, the query returns the empty row set with a
non-empty failure diagnostic instead of raising; and the only fatal path is
time-specification parsing, which fails identically for every response —
i.e. before and independent of any issued query. -/
theorem c6_backend_failures_degrade (nowUs todayEpochDay : Nat)
    (spec : TimeSpec) (resp : ApiResponse) :
    ((∃ w, resolveSpec nowUs todayEpochDay spec = Except.ok w) →
      (resp.statusCode ≠ 200 ∨ resp.status ≠ "success") →
      ∃ diags, query_logs nowUs todayEpochDay spec resp =
          Except.ok ([], diags) ∧ diags ≠ []) ∧
    ∀ msg, query_logs nowUs todayEpochDay spec resp = Except.error msg →
      ∀ resp2, query_logs nowUs todayEpochDay spec resp2 = Except.error msg := by
  constructor
  · rintro ⟨w, hw⟩ hfail
    rw [query_logs, hw]
    rw [handleResponse]
    by_cases h200 : resp.statusCode ≠ 200
    · rw [if_pos h200]
      exact ⟨_, rfl, by simp⟩
    · rcases hfail with h | h
      · exact absurd h h200
      · rw [if_neg h200, if_pos h]
        exact ⟨_, rfl, by simp⟩
  · intro msg hmsg resp2
    rw [query_logs] at hmsg ⊢
    cases hres : resolveSpec nowUs todayEpochDay spec with
    | error e => rw [hres] at hmsg; exact hmsg
    | ok w => rw [hres] at hmsg; exact absurd hmsg (by simp)

/-- A failed transport result: HTTP 500. -/
def c6Resp : ApiResponse :=
  { statusCode := 500, text := "boom", status := "error", results := [],
    rowsScanned := 0, payloadDump := "dump" }

/-- Witness for C6: a concrete HTTP-500 response on a 60-minute look-back
query degrades to the empty row set with a diagnostic. -/
theorem c6_backend_failures_degrade_witness :
    ∃ diags, query_logs 1700000000000000 19000 (TimeSpec.lookback 60) c6Resp =
        Except.ok ([], diags) ∧ diags ≠ [] :=
  (c6_backend_failures_degrade 1700000000000000 19000
      (TimeSpec.lookback 60) c6Resp).1 ⟨_, rfl⟩ (Or.inl (by decide))

/-! ### Lemmas about metadata filter parsing -/

/-- A malformed argument (no `=` separator) leaves the dict unchanged. -/
theorem parseMetaStep_malformed (d : List (String × String)) (s : String)
    (h : hasEqSign s = false) : parseMetaStep d s = d := by
  rw [hasEqSign] at h
  rw [parseMetaStep]
  cases hs : splitFirstEq s.data with
  | none => rfl
  | some kv => rw [hs] at h; simp at h

/-- Folding the parse step over the arguments equals folding it over just
the well-formed arguments: malformed ones are skipped, the rest still
apply. -/
theorem foldl_parseMetaStep_filter (args : List String) : ∀ d,
    args.foldl parseMetaStep d = (args.filter hasEqSign).foldl parseMetaStep d := by
  induction args with
  | nil => intro d; rfl
  | cons s rest ih =>
    intro d
    by_cases h : hasEqSign s
    · simp only [List.foldl_cons, List.filter_cons, h, if_pos]
      exact ih _
    · have h0 : hasEqSign s = false := by simpa using h
      simp only [List.foldl_cons, List.filter_cons, h0, Bool.false_eq_true,
        if_neg, parseMetaStep_malformed d s h0]
      exact ih _

/-- Dict assignment never empties a dict. -/
theorem dictInsert_ne_nil (d : List (String × String)) (k v : String) :
    dictInsert d k v ≠ [] := by
  cases d with
  | nil => simp [dictInsert]
  | cons p rest =>
    obtain ⟨k1, v1⟩ := p
    rw [dictInsert]
    split <;> simp

/-- Folding the parse step preserves non-emptiness of the dict. -/
theorem foldl_parseMetaStep_ne_nil (args : List String) : ∀ d, d ≠ [] →
    args.foldl parseMetaStep d ≠ [] := by
  induction args with
  | nil => intro d h; exact h
  | cons s rest ih =>
    intro d h
    rw [List.foldl_cons]
    apply ih
    rw [parseMetaStep]
    cases hs : splitFirstEq s.data with
    | none => exact h
    | some kv => obtain ⟨ks, vs⟩ := kv; exact dictInsert_ne_nil d _ _

/-- The assigned key is a key of the updated dict. -/
theorem mem_keys_dictInsert_self (d : List (String × String)) (k v : String) :
    k ∈ (dictInsert d k v).map Prod.fst := by
  induction d with
  | nil => simp [dictInsert]
  | cons p rest ih =>
    obtain ⟨k1, v1⟩ := p
    rw [dictInsert]
    split
    · simp
    · simp only [List.map_cons, List.mem_cons]
      right
      exact ih

/-- Dict assignment preserves existing keys. -/
theorem mem_keys_dictInsert_mono (d : List (String × String)) (k v k0 : String) :
    k0 ∈ d.map Prod.fst → k0 ∈ (dictInsert d k v).map Prod.fst := by
  induction d with
  | nil => intro h; simp at h
  | cons p rest ih =>
    obtain ⟨k1, v1⟩ := p
    intro h
    rw [dictInsert]
    simp only [List.map_cons, List.mem_cons] at h
    split
    next heq =>
      simp only [List.map_cons, List.mem_cons]
      rcases h with h | h
      · left; exact h.trans (beq_iff_eq.mp heq)
      · right; exact h
    next =>
      simp only [List.map_cons, List.mem_cons]
      rcases h with h | h
      · left; exact h
      · right; exact ih h

/-- The parse step preserves existing keys. -/
theorem mem_keys_parseMetaStep (d : List (String × String)) (s : String)
    (k0 : String) (h : k0 ∈ d.map Prod.fst) :
    k0 ∈ (parseMetaStep d s).map Prod.fst := by
  rw [parseMetaStep]
  cases hs : splitFirstEq s.data with
  | none => exact h
  | some kv => obtain ⟨ks, vs⟩ := kv; exact mem_keys_dictInsert_mono d _ _ k0 h

/-- Folding the parse step preserves existing keys. -/
theorem mem_keys_foldl_parseMetaStep (args : List String) : ∀ d k0,
    k0 ∈ d.map Prod.fst → k0 ∈ (args.foldl parseMetaStep d).map Prod.fst := by
  induction args with
  | nil => intro d k0 h; exact h
  | cons s rest ih =>
    intro d k0 h
    rw [List.foldl_cons]
    exact ih _ _ (mem_keys_parseMetaStep d s k0 h)

/-- Every well-formed argument's (stripped) key is a key of the folded
dict. -/
theorem mem_keys_foldl_of_mem (args : List String) : ∀ (d : List (String × String))
    (s : String) (ks vs : List Char), s ∈ args →
    splitFirstEq s.data = some (ks, vs) →
    pyStrip (String.mk ks) ∈ (args.foldl parseMetaStep d).map Prod.fst := by
  induction args with
  | nil => intro d s ks vs h; simp at h
  | cons a rest ih =>
    intro d s ks vs hmem hsplit
    rw [List.foldl_cons]
    rcases List.mem_cons.mp hmem with rfl | hm
    · apply mem_keys_foldl_parseMetaStep
      rw [parseMetaStep, hsplit]
      exact mem_keys_dictInsert_self d _ _
    · exact ih _ s ks vs hm hsplit

/-- Skipping malformed arguments commutes with the whole parse. -/
theorem parse_metadata_filters_eq_wf (args : List String) :
    parse_metadata_filters args = parse_metadata_filters (args.filter hasEqSign) := by
  rw [parse_metadata_filters, parse_metadata_filters, foldl_parseMetaStep_filter]
  cases hargs : args with
  | nil => rfl
  | cons a rest =>
    simp only [List.isEmpty_cons, Bool.false_eq_true, if_neg]
    cases hf : (a :: rest).filter hasEqSign with
    | nil => simp [hf]
    | cons b bs => simp [hf]

/-- The parse yields `none` exactly when no argument is well-formed. -/
theorem parse_metadata_filters_none_iff (args : List String) :
    parse_metadata_filters args = none ↔ args.filter hasEqSign = [] := by
  rw [parse_metadata_filters_eq_wf]
  constructor
  · intro h
    cases hf : args.filter hasEqSign with
    | nil => rfl
    | cons s rest =>
      exfalso
      rw [hf, parse_metadata_filters] at h
      simp only [List.isEmpty_cons, Bool.false_eq_true, if_neg] at h
      have hs : hasEqSign s := by
        have hmem : s ∈ args.filter hasEqSign := hf ▸ List.mem_cons_self s rest
        exact (List.mem_filter.mp hmem).2
      have h1 : parseMetaStep [] s ≠ [] := by
        rw [parseMetaStep]
        rw [hasEqSign] at hs
        cases hsp : splitFirstEq s.data with
        | none => rw [hsp] at hs; simp at hs
        | some kv => obtain ⟨ks, vs⟩ := kv; exact dictInsert_ne_nil [] _ _
      have h2 := foldl_parseMetaStep_ne_nil rest _ h1
      rw [List.foldl_cons] at h
      rw [if_neg not_false] at h
      split at h
      next hEmpty => exact h2 (List.isEmpty_iff.mp hEmpty)
      next => exact Option.some_ne_none _ h
  · intro h
    rw [h]
    rfl

/-- Every well-formed argument's stripped key ends up among the keys of the
parsed filter mapping. -/
theorem parse_metadata_filters_mem_keys (args : List String) (s : String)
    (ks vs : List Char) (hmem : s ∈ args)
    (hsplit : splitFirstEq s.data = some (ks, vs)) :
    pyStrip (String.mk ks) ∈
      ((parse_metadata_filters args).getD []).map Prod.fst := by
  have hW : pyStrip (String.mk ks) ∈ (args.foldl parseMetaStep []).map Prod.fst :=
    mem_keys_foldl_of_mem args [] s ks vs hmem hsplit
  have hfoldne : args.foldl parseMetaStep [] ≠ [] := by
    intro h0
    rw [h0] at hW
    simp at hW
  have hargsne : ¬args.isEmpty = true := by
    cases args with
    | nil => simp at hmem
    | cons a rest => simp
  rw [parse_metadata_filters, if_neg hargsne,
    if_neg (fun hE => hfoldne (List.isEmpty_iff.mp hE))]
  simpa using hW

/-- C7: malformed metadata arguments (no `=`) are skipped while the
remaining well-formed arguments still apply; the result is `none` exactly
when no argument is well-formed; a well-formed argument is split on its
first `=` with both halves whitespace-stripped; and every well-formed
argument contributes its stripped key to the resulting mapping. -/
theorem c7_parse_metadata_filters :
    (∀ args : List String,
        parse_metadata_filters args = parse_metadata_filters (args.filter hasEqSign)) ∧
    (∀ args : List String,
        parse_metadata_filters args = none ↔ args.filter hasEqSign = []) ∧
    (∀ (s : String) (ks vs : List Char), splitFirstEq s.data = some (ks, vs) →
        parse_metadata_filters [s] =
          some [(pyStrip (String.mk ks), pyStrip (String.mk vs))]) ∧
    ∀ (args : List String) (s : String) (ks vs : List Char), s ∈ args →
      splitFirstEq s.data = some (ks, vs) →
      pyStrip (String.mk ks) ∈
        ((parse_metadata_filters args).getD []).map Prod.fst := by
  refine ⟨parse_metadata_filters_eq_wf, parse_metadata_filters_none_iff, ?_,
    parse_metadata_filters_mem_keys⟩
  intro s ks vs h
  rw [parse_metadata_filters]
  simp [parseMetaStep, h, dictInsert]

/-- Witness for C7 on concrete arguments: one well-formed argument with
whitespace, one malformed argument. -/
theorem c7_parse_metadata_filters_witness :
    parse_metadata_filters ["a =1", "bad"] =
      parse_metadata_filters (["a =1", "bad"].filter hasEqSign) ∧
    parse_metadata_filters ["a =1"] =
      some [(pyStrip (String.mk ['a', ' ']), pyStrip (String.mk ['1']))] ∧
    pyStrip (String.mk ['a', ' ']) ∈
      ((parse_metadata_filters ["a =1", "bad"]).getD []).map Prod.fst :=
  ⟨c7_parse_metadata_filters.1 ["a =1", "bad"],
   c7_parse_metadata_filters.2.2.1 "a =1" ['a', ' '] ['1'] (by decide),
   c7_parse_metadata_filters.2.2.2 ["a =1", "bad"] "a =1" ['a', ' '] ['1']
     (by decide) (by decide)⟩

/-- C8: a rendered value longer than 50 characters is truncated to its
first 47 characters plus the 3-character ellipsis (total length 50);
values of at most 50 characters are unchanged. -/
theorem c8_value_truncation (s : String) :
    (50 < s.length → truncateValue s = String.mk (s.data.take 47) ++ "..." ∧
      (truncateValue s).length = 50) ∧
    (s.length ≤ 50 → truncateValue s = s) := by
  constructor
  · intro h
    have heq : truncateValue s = String.mk (s.data.take 47) ++ "..." := by
      rw [truncateValue, if_pos h]
    refine ⟨heq, ?_⟩
    rw [heq, String.length_append]
    have h1 : (String.mk (s.data.take 47)).length = 47 := by
      show (s.data.take 47).length = 47
      rw [List.length_take]
      have h2 : 47 ≤ s.data.length := by
        have h3 : s.length = s.data.length := rfl
        omega
      omega
    rw [h1]
    rfl
  · intro h
    rw [truncateValue, if_neg (by omega)]

/-- A 60-character metadata value. -/
def longValue60 : String :=
  "012345678901234567890123456789012345678901234567890123456789"

/-- Witness for C8: the 60-character value renders as its first 47
characters plus the ellipsis, total length 50. -/
theorem c8_value_truncation_witness :
    truncateValue longValue60 = String.mk (longValue60.data.take 47) ++ "..." ∧
    (truncateValue longValue60).length = 50 :=
  (c8_value_truncation longValue60).1 (by decide)

/-- Unrolling the rendering loop of `format_metadata_fields`: the
accumulated parts are the selected fields' renderings in list order, fields
absent from the row contributing nothing. -/
theorem format_parts_foldl (rowData : List (String × PyVal)) (fs : List String) :
    ∀ acc : List String,
      fs.foldl (fun acc f =>
        match lookupVal rowData f with
        | some v => acc ++ [f ++ "=" ++ truncateValue (renderVal v)]
        | none => acc) acc =
      acc ++ fs.filterMap (fun f => (lookupVal rowData f).map
        (fun v => f ++ "=" ++ truncateValue (renderVal v))) := by
  induction fs with
  | nil => intro acc; simp
  | cons f fs ih =>
    intro acc
    rw [List.foldl_cons, List.filterMap_cons]
    cases hg : lookupVal rowData f with
    | none => simp [hg, ih]
    | some v => simp [hg, ih]

/-- C9: with an explicit field list, the projector renders exactly the
listed fields present in the row, in list order, as the suffix
`" | f1=v1 | f2=v2 | ..."`; absent fields are silently omitted, and the
result is the empty string when no listed field is present. -/
theorem c9_metadata_projection (rowData : List (String × PyVal)) (fs : List String) :
    format_metadata_fields rowData (some fs) =
      (if fs.filterMap (fun f => (lookupVal rowData f).map
            (fun v => f ++ "=" ++ truncateValue (renderVal v))) = [] then ""
       else " | " ++ joinSep " | " (fs.filterMap (fun f => (lookupVal rowData f).map
            (fun v => f ++ "=" ++ truncateValue (renderVal v))))) := by
  rw [format_metadata_fields]
  cases fs with
  | nil => simp
  | cons f fs =>
    rw [if_neg (by simp)]
    rw [format_parts_foldl]
    simp only [List.nil_append]
    by_cases h : (f :: fs).filterMap (fun f => (lookupVal rowData f).map
        (fun v => f ++ "=" ++ truncateValue (renderVal v))) = []
    · rw [if_pos (List.isEmpty_iff.mpr h), if_pos h]
    · rw [if_neg (fun hE => h (List.isEmpty_iff.mp hE)), if_neg h]

/-- C10: in dual-stream correlation the first issued query is the DEBUG
stream with the caller-supplied limit and the second is the ERROR stream
with the hard-coded limit 100, for every caller-supplied limit. -/
theorem c10_correlate_query_limits (svc : QueryCall → List LogRow)
    (minutes limit : Nat) (startUtc endUtc traceId : Option String)
    (metadataFilters : Option (List (String × String))) :
    ((correlate_tx_and_errors svc minutes limit startUtc endUtc traceId
        metadataFilters).1.map (fun q => q.limit)) = [limit, 100] ∧
    ((correlate_tx_and_errors svc minutes limit startUtc endUtc traceId
        metadataFilters).1.map (fun q => q.severity)) =
      [some "DEBUG", some "ERROR"] := by
  constructor <;> rfl
